import Mathlib

/-!
Verification development for the MaestroPocAPI flight-recommendation service.

The definitions below are a shallow embedding of the offer normalization,
matching, valuation and ranking pipeline of the `/flight-search` route in
`src/api/index.ts` (the current iteration of the engine; `src/unnamed/part_000`
holds an earlier iteration whose differences are noted where relevant).

Modelling conventions:
- JavaScript numbers are modelled as rationals; integer counts as naturals.
- A nullable field is an `Option`; JavaScript truthiness of a number is
  "present and nonzero", of a string "nonempty".
- Upstream payload fields never read by the pipeline (record `ID`,
  `AvailabilityTrips`, cash `flightNumber`) are omitted.
-/

namespace Maestro

/-- Fixed CAD to USD conversion constant, `CAD_TO_USD = 0.73` in
`src/api/index.ts`. -/
def CAD_TO_USD : ℚ := 73 / 100

/-- Upper-casing of a string, `s.toUpperCase()` in the source.  Defined over
the underlying character list so that concrete instances evaluate inside the
kernel; `toUpperStr_eq_toUpper` below shows it is exactly `String.toUpper`. -/
def toUpperStr (s : String) : String := ⟨s.data.map Char.toUpper⟩

/-- Party size `adults + children` as used in the arithmetic of the route. -/
def party (adults children : ℕ) : ℚ := (adults : ℚ) + (children : ℚ)

/-- The per-cabin view of one raw seats.aero availability record: the fields
the `cabinMap` of `getSeatsAeroFlights` selects for one cabin class
(availability flag, raw mileage cost, raw taxes, direct flag, airline list,
direct airline list, remaining seats). -/
structure CabinData where
  available : Bool
  cost : ℚ
  taxes : ℚ
  direct : Bool
  airlines : String
  directAirlines : String
  remainingSeats : ℚ
deriving DecidableEq, Inhabited

/-- One raw seats.aero availability record: the four per-cabin field groups
(Y, W, J, F) plus the shared fields (`TaxesCurrency`, `Route`, `Date`,
`Source`). -/
structure RawAward where
  y : CabinData
  w : CabinData
  j : CabinData
  fir : CabinData
  taxesCurrency : String
  originAirport : String
  destinationAirport : String
  date : String
  source : String
deriving DecidableEq, Inhabited

/-- The `cabinMap[cabin] || cabinMap.economy` lookup: an unknown cabin
identifier falls back to the economy field group. -/
def cabinData (fl : RawAward) (cabin : String) : CabinData :=
  if cabin = "economy" then fl.y
  else if cabin = "premiumeconomy" then fl.w
  else if cabin = "business" then fl.j
  else if cabin = "first" then fl.fir
  else fl.y

/-- One normalized award offer as produced by `getSeatsAeroFlights` for one
cabin and direction. -/
structure AwardOffer where
  airline : String
  points_used : ℚ
  taxes_fees : ℚ
  direct : Bool
  origin : String
  destination : String
  departure_date : String
  cabin : String
  seats_available : ℚ
  program : String
deriving DecidableEq, Inhabited

/-- Currency normalization of the raw tax amount in `getSeatsAeroFlights`:
divide the minor-unit amount by 100 and, when the record currency is not USD,
multiply by `CAD_TO_USD`. -/
def awardTaxesFees (fl : RawAward) (cabin : String) : ℚ :=
  if fl.taxesCurrency ≠ "USD" then ((cabinData fl cabin).taxes / 100) * CAD_TO_USD
  else (cabinData fl cabin).taxes / 100

/-- The per-record transform of `getSeatsAeroFlights`: the airline is the
direct-airlines field when nonstop was requested and the general airline list
otherwise; `points_used` is the raw mileage cost, per itinerary. -/
def awardOfRaw (cabin : String) (nonstop : Bool) (fl : RawAward) : AwardOffer :=
  { airline := if nonstop then (cabinData fl cabin).directAirlines else (cabinData fl cabin).airlines
    points_used := (cabinData fl cabin).cost
    taxes_fees := awardTaxesFees fl cabin
    direct := (cabinData fl cabin).direct
    origin := fl.originAirport
    destination := fl.destinationAirport
    departure_date := fl.date
    cabin := cabin
    seats_available := (cabinData fl cabin).remainingSeats
    program := fl.source }

/-- The award offer normalizer of `getSeatsAeroFlights`: keep the records
whose cabin availability flag is set and whose direct flag equals the
requested nonstop flag, then apply the per-record transform. -/
def outboundFlightsOf (cabin : String) (nonstop : Bool) (records : List RawAward) : List AwardOffer :=
  (records.filter (fun fl => (cabinData fl cabin).available && ((cabinData fl cabin).direct == nonstop))).map
    (awardOfRaw cabin nonstop)

/-- One cash offer as produced by `fetchCashFlights` from an Amadeus
itinerary (return fields are null for one-way results). -/
structure CashFlight where
  airline : String
  cash_price : ℚ
  nonstop : Bool
  departure_time : String
  arrival_time : String
  departure_date : String
  return_departure_time : Option String
  return_arrival_time : Option String
  return_date : Option String
  cabin : String
deriving DecidableEq, Inhabited

/-- A combined offer of the `/flight-search` pipeline: an award offer
annotated with the matched cash price, times and `cpp`. -/
structure Offer where
  airline : String
  points_used : ℚ
  taxes_fees : ℚ
  direct : Bool
  origin : String
  destination : String
  departure_date : String
  cabin : String
  seats_available : ℚ
  program : String
  cash_price : Option ℚ
  departure_time : String
  arrival_time : String
  return_departure_time : Option String
  return_arrival_time : Option String
  return_date : Option String
  cpp : ℚ
deriving DecidableEq, Inhabited

/-- JavaScript truthiness of a nullable number: present and nonzero. -/
def cashTruthy : Option ℚ → Bool
  | none => false
  | some p => p != 0

/-- JavaScript `x || d` on a nullable string: `d` when `x` is null or empty. -/
def jsOrStr (x : Option String) (d : Option String) : Option String :=
  match x with
  | some s => if s != "" then some s else d
  | none => d

/-- JavaScript `x || d` on a number: `d` when `x` is zero. -/
def jsOrQ (x : ℚ) (d : ℚ) : ℚ :=
  if x ≠ 0 then x else d

/-- The cash-offer lookup of the outbound combine step: equal airline, equal
departure date, cash nonstop equal to the award direct flag, and equal cabin
up to upper-casing. -/
def findCashForOutbound (cashFlights : List CashFlight) (award : AwardOffer) : Option CashFlight :=
  cashFlights.find? (fun cf =>
    cf.airline == award.airline &&
    cf.departure_date == award.departure_date &&
    cf.nonstop == award.direct &&
    toUpperStr cf.cabin == toUpperStr award.cabin)

/-- The outbound combine step of `/flight-search`: attach the matched cash
price and times to an award offer and compute `cpp`; with no match, a
placeholder with null price and `N/A` times is used.  The `cpp` of the route
divides by `(adults + children) * points_used` and applies no zero floor. -/
def processOutbound (cashFlights : List CashFlight) (adults children : ℕ)
    (returnDate : Option String) (award : AwardOffer) : Offer :=
  match findCashForOutbound cashFlights award with
  | some cf =>
      { airline := award.airline
        points_used := award.points_used
        taxes_fees := award.taxes_fees
        direct := award.direct
        origin := award.origin
        destination := award.destination
        departure_date := award.departure_date
        cabin := award.cabin
        seats_available := award.seats_available
        program := award.program
        cash_price := some cf.cash_price
        departure_time := cf.departure_time
        arrival_time := cf.arrival_time
        return_departure_time := cf.return_departure_time
        return_arrival_time := cf.return_arrival_time
        return_date := jsOrStr cf.return_date returnDate
        cpp := if cf.cash_price ≠ 0 then
            ((cf.cash_price - award.taxes_fees) / (party adults children * award.points_used)) * 100
          else 0 }
  | none =>
      { airline := award.airline
        points_used := award.points_used
        taxes_fees := award.taxes_fees
        direct := award.direct
        origin := award.origin
        destination := award.destination
        departure_date := award.departure_date
        cabin := award.cabin
        seats_available := award.seats_available
        program := award.program
        cash_price := none
        departure_time := "N/A"
        arrival_time := "N/A"
        return_departure_time := none
        return_arrival_time := none
        return_date := returnDate
        cpp := 0 }

/-- The `outboundProcessed` list of the route: combine every outbound award
offer with its cash match, then drop the offers without a truthy cash price. -/
def outboundProcessed (cashFlights : List CashFlight) (adults children : ℕ)
    (returnDate : Option String) (awards : List AwardOffer) : List Offer :=
  ((awards.map (processOutbound cashFlights adults children returnDate)).filter
    (fun o => cashTruthy o.cash_price))

/-- A priced return-leg candidate of the round-trip matching step. -/
structure RetOffer where
  airline : String
  points_used : ℚ
  taxes_fees : ℚ
  direct : Bool
  origin : String
  destination : String
  departure_date : String
  cabin : String
  seats_available : ℚ
  program : String
  cash_price : Option ℚ
  departure_time : String
  arrival_time : String
deriving DecidableEq, Inhabited

/-- The cash-offer lookup of the return combine step: the cash return date is
joined against the award departure date. -/
def findCashForReturn (cashFlights : List CashFlight) (award : AwardOffer) : Option CashFlight :=
  cashFlights.find? (fun cf =>
    cf.airline == award.airline &&
    cf.return_date == some award.departure_date &&
    cf.nonstop == award.direct &&
    toUpperStr cf.cabin == toUpperStr award.cabin)

/-- The return combine step of `/flight-search`: attach the matched cash
price and times to a return-leg award offer. -/
def processReturn (cashFlights : List CashFlight) (award : AwardOffer) : RetOffer :=
  match findCashForReturn cashFlights award with
  | some cf =>
      { airline := award.airline
        points_used := award.points_used
        taxes_fees := award.taxes_fees
        direct := award.direct
        origin := award.origin
        destination := award.destination
        departure_date := award.departure_date
        cabin := award.cabin
        seats_available := award.seats_available
        program := award.program
        cash_price := some cf.cash_price
        departure_time := cf.departure_time
        arrival_time := cf.arrival_time }
  | none =>
      { airline := award.airline
        points_used := award.points_used
        taxes_fees := award.taxes_fees
        direct := award.direct
        origin := award.origin
        destination := award.destination
        departure_date := award.departure_date
        cabin := award.cabin
        seats_available := award.seats_available
        program := award.program
        cash_price := none
        departure_time := "N/A"
        arrival_time := "N/A" }

/-- The `returnProcessed` list of the route: price every return-leg award
offer, then drop the ones without a truthy cash price. -/
def returnProcessed (cashFlights : List CashFlight) (awards : List AwardOffer) : List RetOffer :=
  ((awards.map (processReturn cashFlights)).filter (fun o => cashTruthy o.cash_price))

/-- The return-leg lookup of the matching step: equal airline, equal program,
and equal cabin up to upper-casing. -/
def findReturnMatch (retP : List RetOffer) (o : Offer) : Option RetOffer :=
  retP.find? (fun r =>
    r.airline == o.airline &&
    r.program == o.program &&
    toUpperStr r.cabin == toUpperStr o.cabin)

/-- One offer of the round-trip matching step: with no return match a
round-trip candidate becomes null (dropped); otherwise the taxes of both legs
are summed, `points_used` is recomputed as
`(adults + children) * points_used * (2 if round else 1)`, and the return
times and date are taken from the matched return leg. -/
def matchOne (trip_type : String) (adults children : ℕ) (retP : List RetOffer)
    (o : Offer) : Option Offer :=
  match findReturnMatch retP o with
  | none =>
      if trip_type = "round" then none
      else some { o with
        taxes_fees := o.taxes_fees + 0
        points_used := party adults children * o.points_used * (if trip_type = "round" then 2 else 1)
        return_departure_time := jsOrStr o.return_departure_time (some "N/A")
        return_arrival_time := jsOrStr o.return_arrival_time (some "N/A")
        return_date := o.return_date }
  | some r =>
      some { o with
        taxes_fees := o.taxes_fees + jsOrQ r.taxes_fees 0
        points_used := party adults children * o.points_used * (if trip_type = "round" then 2 else 1)
        return_departure_time := some r.departure_time
        return_arrival_time := some r.arrival_time
        return_date := some r.departure_date }

/-- The round-trip matching pass over the collected offers (map to offer or
null, then keep the non-null offers). -/
def matchLegs (trip_type : String) (adults children : ℕ) (retP : List RetOffer)
    (flights : List Offer) : List Offer :=
  ((flights.map (matchOne trip_type adults children retP)).filterMap id)

/-- One normalized seats.aero result (the outbound and return offer pools of
one requested cabin). -/
structure SeatsResult where
  outboundFlights : List AwardOffer
  returnFlights : List AwardOffer
deriving DecidableEq, Inhabited

/-- One iteration of the combine loop of `/flight-search`: append the
processed outbound offers of this cabin, and, for a round trip with a
nonempty collected list, run the matching pass against this cabin return
pool. -/
def combineStep (cashFlights : List CashFlight) (trip_type : String) (adults children : ℕ)
    (returnDate : Option String) (acc : List Offer) (res : SeatsResult) : List Offer :=
  if trip_type = "round" ∧
      0 < (acc ++ outboundProcessed cashFlights adults children returnDate res.outboundFlights).length then
    matchLegs trip_type adults children (returnProcessed cashFlights res.returnFlights)
      (acc ++ outboundProcessed cashFlights adults children returnDate res.outboundFlights)
  else acc ++ outboundProcessed cashFlights adults children returnDate res.outboundFlights

/-- The `allFlights` list of `/flight-search`: the combine loop folded over
the per-cabin seats.aero results. -/
def allFlightsOf (cashFlights : List CashFlight) (seatsAeroResults : List SeatsResult)
    (trip_type : String) (adults children : ℕ) (returnDate : Option String) : List Offer :=
  seatsAeroResults.foldl (combineStep cashFlights trip_type adults children returnDate) []

/-- One entry of the points recommendation list (the projection applied after
ranking; `payment_type` is the literal string `points`). -/
structure PointsRec where
  airline : String
  cabin : String
  points_used : ℚ
  cash_price : Option ℚ
  taxes_fees : ℚ
  cpp : ℚ
  nonstop : Bool
  departure_time : String
  arrival_time : String
  departure_date : String
  return_departure_time : Option String
  return_arrival_time : Option String
  return_date : Option String
  transfer_from : String
  payment_type : String
  program : String
deriving DecidableEq, Inhabited

/-- The projection of a combined offer to a points recommendation entry. -/
def toPointsRec (f : Offer) : PointsRec :=
  { airline := f.airline
    cabin := f.cabin
    points_used := f.points_used
    cash_price := f.cash_price
    taxes_fees := f.taxes_fees
    cpp := f.cpp
    nonstop := f.direct
    departure_time := f.departure_time
    arrival_time := f.arrival_time
    departure_date := f.departure_date
    return_departure_time := f.return_departure_time
    return_arrival_time := f.return_arrival_time
    return_date := f.return_date
    transfer_from :=
      if f.program = "aeroplan" ∨ f.airline = "BA" ∨ f.airline = "IB" then "Amex" else "Chase"
    payment_type := "points"
    program := f.program }

/-- The descending-cpp ordering of the ranking sort (the JavaScript
comparator `(a, b) => b.cpp - a.cpp`). -/
def cppGe (a b : Offer) : Prop := b.cpp ≤ a.cpp

instance : DecidableRel cppGe := fun a b => inferInstanceAs (Decidable (b.cpp ≤ a.cpp))

/-- The `pointsRecommendations` list of `/flight-search`: keep the offers
affordable from the Amex plus Chase balances, sort by descending cpp, take
the first 5, and project each to a recommendation entry.  The source runs the
JavaScript stable `Array.prototype.sort`; a stable sort under a fixed total
preorder has one possible output, so it is modelled by the stable
`List.insertionSort` (which, unlike `List.mergeSort`, also evaluates inside
the kernel on concrete lists). -/
def pointsRecommendations (amex chase : ℕ) (flights : List Offer) : List PointsRec :=
  (((List.insertionSort cppGe
      (flights.filter (fun f => decide ((amex : ℚ) + (chase : ℚ) ≥ f.points_used)))).take 5).map
    toPointsRec)

/-- The nonstop filter applied to the cash offers before the fallback
reduction. -/
def nsPass (nonstop : Bool) (f : CashFlight) : Bool :=
  if nonstop then f.nonstop else true

/-- One step of the cash fallback reduction
`(best, f) => !best.cash_price || f.cash_price < best.cash_price ? f : best`.
The initial accumulator `{cash_price: Infinity, airline: ""}` is modelled as
`none`: its price is not zero (so its truthiness test fails) and every real
price is below it, so the first offer always replaces it. -/
def cashStep (best : Option CashFlight) (f : CashFlight) : Option CashFlight :=
  match best with
  | none => some f
  | some b => if b.cash_price = 0 ∨ f.cash_price < b.cash_price then some f else some b

/-- The `cashRecommendation` of `/flight-search`: reduce the first three
nonstop-filtered cash offers to the one with the lowest price (`none` models
the untouched initial accumulator, whose airline is the empty string). -/
def cashRecommendation (nonstop : Bool) (cashFlights : List CashFlight) : Option CashFlight :=
  ((cashFlights.filter (nsPass nonstop)).take 3).foldl cashStep none

/-- One entry of the final recommendations array: a points recommendation, a
raw cash offer, or the no-offers sentinel object. -/
inductive Rec where
  | points (p : PointsRec)
  | cash (c : CashFlight)
  | sentinel
deriving DecidableEq, Inhabited

/-- The `payment_type` field of a response entry: points entries carry the
string `points`; the raw cash offer and the sentinel carry no such field. -/
def paymentType : Rec → Option String
  | .points _ => some "points"
  | .cash _ => none
  | .sentinel => none

/-- The recommendations array before the sentinel check: the points
recommendations; the cash fallback is appended exactly when its airline
string is truthy and the points list is empty (`cashRecommendation.airline
&& !pointsRecommendations.length` in the source). -/
def recsBeforeSentinel (amex chase : ℕ) (nonstop : Bool) (cashFlights : List CashFlight)
    (flights : List Offer) : List Rec :=
  (pointsRecommendations amex chase flights).map Rec.points ++
    (match cashRecommendation nonstop cashFlights with
     | some b =>
        if b.airline ≠ "" ∧ (pointsRecommendations amex chase flights).length = 0 then
          [Rec.cash b]
        else []
     | none => [])

/-- The final recommendations array of `/flight-search`: the collected
entries, or the single sentinel entry when there are none. -/
def recommendationsOf (amex chase : ℕ) (nonstop : Bool) (cashFlights : List CashFlight)
    (flights : List Offer) : List Rec :=
  if (recsBeforeSentinel amex chase nonstop cashFlights flights).length = 0 then [Rec.sentinel]
  else recsBeforeSentinel amex chase nonstop cashFlights flights

/-- The `/flight-search` core on collected upstream data: combine, match,
value and rank.  The departure-time-window preference `arrival_departure` is
accepted and validated by the route but the preference filter is commented
out (`filteredFlights = allFlights`), so it is never read. -/
def flightSearch (amex chase : ℕ) (trip_type : String) (adults children : ℕ)
    (returnDate : Option String) (nonstop : Bool) (arrival_departure : String)
    (cashFlights : List CashFlight) (seatsAeroResults : List SeatsResult) : List Rec :=
  let allFlights := allFlightsOf cashFlights seatsAeroResults trip_type adults children returnDate
  let filteredFlights := allFlights
  recommendationsOf amex chase nonstop cashFlights filteredFlights

/-! Concrete sample data used to evaluate the pipeline on closed inputs. -/

/-- A cabin field group with availability set (cost 60000, raw taxes 80000,
direct, single carrier AA). -/
def sampleCD : CabinData :=
  { available := true, cost := 60000, taxes := 80000, direct := true, airlines := "AA",
    directAirlines := "AA", remainingSeats := 2 }

/-- A cabin field group with no availability. -/
def offCD : CabinData :=
  { available := false, cost := 0, taxes := 0, direct := false, airlines := "",
    directAirlines := "", remainingSeats := 0 }

/-- A raw award record with USD taxes and economy availability. -/
def sampleRawUSD : RawAward :=
  { y := sampleCD, w := offCD, j := offCD, fir := offCD, taxesCurrency := "USD",
    originAirport := "JFK", destinationAirport := "LHR", date := "2025-06-01", source := "united" }

/-- A raw award record with CAD taxes and economy availability. -/
def sampleRawCAD : RawAward :=
  { y := sampleCD, w := offCD, j := offCD, fir := offCD, taxesCurrency := "CAD",
    originAirport := "JFK", destinationAirport := "LHR", date := "2025-06-01", source := "united" }

/-- A one-way cash offer matching the sample award record (price 650 USD). -/
def sampleCash650 : CashFlight :=
  { airline := "AA", cash_price := 650, nonstop := true, departure_time := "08:00",
    arrival_time := "20:00", departure_date := "2025-06-01", return_departure_time := none,
    return_arrival_time := none, return_date := none, cabin := "ECONOMY" }

/-- A round-trip cash offer with a return leg on 2025-06-10 (price 500 USD). -/
def sampleCashRound : CashFlight :=
  { airline := "AA", cash_price := 500, nonstop := true, departure_time := "08:00",
    arrival_time := "11:00", departure_date := "2025-06-01",
    return_departure_time := some "09:00", return_arrival_time := some "12:00",
    return_date := some "2025-06-10", cabin := "ECONOMY" }

/-- An outbound award offer (100 points, 10 USD taxes). -/
def sampleAwardOut : AwardOffer :=
  { airline := "AA", points_used := 100, taxes_fees := 10, direct := true, origin := "JFK",
    destination := "LHR", departure_date := "2025-06-01", cabin := "economy",
    seats_available := 2, program := "united" }

/-- A return-leg award offer on the return date (100 points, 7 USD taxes). -/
def sampleAwardRet : AwardOffer :=
  { airline := "AA", points_used := 100, taxes_fees := 7, direct := true, origin := "LHR",
    destination := "JFK", departure_date := "2025-06-10", cabin := "economy",
    seats_available := 2, program := "united" }

/-- A cash offer whose carrier code is the empty string. -/
def emptyAirlineCash : CashFlight :=
  { airline := "", cash_price := 650, nonstop := true, departure_time := "08:00",
    arrival_time := "20:00", departure_date := "2025-06-01", return_departure_time := none,
    return_arrival_time := none, return_date := none, cabin := "ECONOMY" }

/-- A plain cash offer with a nonempty carrier code. -/
def plainCash : CashFlight :=
  { airline := "UA", cash_price := 300, nonstop := true, departure_time := "07:00",
    arrival_time := "19:00", departure_date := "2025-06-01", return_departure_time := none,
    return_arrival_time := none, return_date := none, cabin := "ECONOMY" }

/-- A cash offer on carrier A1 at 400 USD. -/
def cashA1 : CashFlight := { plainCash with airline := "A1", cash_price := 400 }

/-- A cash offer on carrier A2 at 300 USD. -/
def cashA2 : CashFlight := { plainCash with airline := "A2", cash_price := 300 }

/-- A cash offer on carrier A3 at 500 USD. -/
def cashA3 : CashFlight := { plainCash with airline := "A3", cash_price := 500 }

/-- A cash offer on carrier A4 at 100 USD, cheaper than all of the above. -/
def cashA4 : CashFlight := { plainCash with airline := "A4", cash_price := 100 }

/-- The four-offer cash list whose cheapest entry sits in fourth position. -/
def fourCash : List CashFlight := [cashA1, cashA2, cashA3, cashA4]

/-!
Theorems.  The arithmetic of `Rat` in Batteries is marked irreducible only to
keep elaboration from unfolding it accidentally; concrete evaluation of the
pipeline needs it unfolded, so it is made semireducible locally.
-/

attribute [local semireducible] Rat.add Rat.sub Rat.mul Rat.inv

/-- The model upper-casing agrees with the library `String.toUpper`. -/
theorem toUpperStr_eq_toUpper (s : String) : toUpperStr s = s.toUpper := by
  rw [String.toUpper, String.map_eq]
  rfl

/-- Folding a step function preserves a property of every element of the
accumulator list, provided every step does. -/
theorem foldl_forall_mem {α β : Type} (step : List β → α → List β) (P : β → Prop) :
    ∀ (l : List α) (init : List β),
      (∀ acc a, a ∈ l → (∀ b ∈ acc, P b) → ∀ b ∈ step acc a, P b) →
      (∀ b ∈ init, P b) → ∀ b ∈ l.foldl step init, P b
  | [], _, _, hinit => hinit
  | a :: l, init, hstep, hinit => by
    simp only [List.foldl_cons]
    exact foldl_forall_mem step P l (step init a)
      (fun acc x hx hacc => hstep acc x (List.mem_cons_of_mem _ hx) hacc)
      (hstep init a (List.mem_cons_self _ _) hinit)

/-- Membership in the matching pass comes from a pre-match offer that the
per-offer match sent to a non-null result. -/
theorem mem_matchLegs {tt : String} {ad ch : ℕ} {retP : List RetOffer} {flights : List Offer}
    {o : Offer} :
    o ∈ matchLegs tt ad ch retP flights ↔ ∃ pre ∈ flights, matchOne tt ad ch retP pre = some o := by
  simp [matchLegs, List.filterMap_map, List.mem_filterMap]

/-- Inversion of the per-offer match for a round trip: the result is non-null
exactly on a found return match, and fixes every updated field. -/
theorem matchOne_round_some {ad ch : ℕ} {retP : List RetOffer} {pre o : Offer}
    (h : matchOne "round" ad ch retP pre = some o) :
    ∃ r, findReturnMatch retP pre = some r ∧
      o = { pre with
        taxes_fees := pre.taxes_fees + jsOrQ r.taxes_fees 0
        points_used := party ad ch * pre.points_used * 2
        return_departure_time := some r.departure_time
        return_arrival_time := some r.arrival_time
        return_date := some r.departure_date } := by
  unfold matchOne at h
  cases hf : findReturnMatch retP pre with
  | none => rw [hf] at h; simp at h
  | some r =>
    rw [hf] at h
    simp only [if_pos rfl, Option.some.injEq, reduceIte] at h
    exact ⟨r, rfl, h.symm⟩

/-- What a successful return-match lookup guarantees: the return candidate is
in the pool and agrees on airline, program and upper-cased cabin. -/
theorem findReturnMatch_spec {retP : List RetOffer} {o : Offer} {r : RetOffer}
    (h : findReturnMatch retP o = some r) :
    r ∈ retP ∧ r.airline = o.airline ∧ r.program = o.program ∧
      toUpperStr r.cabin = toUpperStr o.cabin := by
  have hmem := List.mem_of_find?_eq_some h
  have hp := List.find?_some h
  simp only [Bool.and_eq_true, beq_iff_eq] at hp
  exact ⟨hmem, hp.1.1, hp.1.2, hp.2⟩

/-- The outbound combine step keeps the per-itinerary mileage cost. -/
theorem processOutbound_points_used (cash : List CashFlight) (ad ch : ℕ) (rd : Option String)
    (a : AwardOffer) : (processOutbound cash ad ch rd a).points_used = a.points_used := by
  unfold processOutbound
  cases findCashForOutbound cash a <;> rfl

/-- Membership in `outboundProcessed` comes from a source award offer whose
combined form has a truthy cash price. -/
theorem mem_outboundProcessed {cash : List CashFlight} {ad ch : ℕ} {rd : Option String}
    {awards : List AwardOffer} {o : Offer} :
    o ∈ outboundProcessed cash ad ch rd awards ↔
      (∃ a ∈ awards, processOutbound cash ad ch rd a = o) ∧ cashTruthy o.cash_price = true := by
  simp [outboundProcessed, List.mem_filter, List.mem_map]

/-- JavaScript `x || 0` on a number is the number itself. -/
theorem jsOrQ_zero (x : ℚ) : jsOrQ x 0 = x := by
  unfold jsOrQ
  split
  · rfl
  · simp_all

/-- Claim C3: the award offer normalizer keeps exactly the raw records whose
cabin availability flag is true and whose direct-flight flag strictly equals
the requested nonstop flag; in particular every produced offer has
`direct = nonstop`, for every input record set. -/
theorem normalizer_nonstop_exact (cabin : String) (nonstop : Bool) (records : List RawAward) :
    (∀ o ∈ outboundFlightsOf cabin nonstop records, o.direct = nonstop) ∧
    (∀ o : AwardOffer, o ∈ outboundFlightsOf cabin nonstop records ↔
      ∃ fl ∈ records,
        ((cabinData fl cabin).available = true ∧ (cabinData fl cabin).direct = nonstop) ∧
        o = awardOfRaw cabin nonstop fl) := by
  constructor
  · intro o ho
    simp only [outboundFlightsOf, List.mem_map, List.mem_filter, Bool.and_eq_true,
      beq_iff_eq] at ho
    obtain ⟨fl, ⟨_, _, hdir⟩, rfl⟩ := ho
    simpa [awardOfRaw] using hdir
  · intro o
    simp only [outboundFlightsOf, List.mem_map, List.mem_filter, Bool.and_eq_true, beq_iff_eq]
    constructor
    · rintro ⟨fl, ⟨hmem, hav, hdir⟩, rfl⟩
      exact ⟨fl, hmem, ⟨hav, hdir⟩, rfl⟩
    · rintro ⟨fl, hmem, ⟨hav, hdir⟩, rfl⟩
      exact ⟨fl, ⟨hmem, hav, hdir⟩, rfl⟩

/-- Witness for C3: on a concrete record set with nonstop requested, the
normalized offer is produced and carries `direct = true`. -/
theorem normalizer_nonstop_exact_witness :
    awardOfRaw "economy" true sampleRawUSD ∈ outboundFlightsOf "economy" true [sampleRawUSD] ∧
    (awardOfRaw "economy" true sampleRawUSD).direct = true :=
  ⟨by decide, (normalizer_nonstop_exact "economy" true [sampleRawUSD]).1 _ (by decide)⟩

/-- Claim C8: for every raw award record kept by the normalizer, `taxes_fees`
is the raw minor-unit tax amount divided by 100, multiplied by the CAD to USD
constant exactly when the record currency is not USD. -/
theorem taxes_currency_normalization (cabin : String) (nonstop : Bool)
    (records : List RawAward) :
    ∀ o ∈ outboundFlightsOf cabin nonstop records, ∃ fl ∈ records,
      (fl.taxesCurrency ≠ "USD" →
        o.taxes_fees = ((cabinData fl cabin).taxes / 100) * CAD_TO_USD) ∧
      (fl.taxesCurrency = "USD" → o.taxes_fees = (cabinData fl cabin).taxes / 100) := by
  intro o ho
  simp only [outboundFlightsOf, List.mem_map, List.mem_filter] at ho
  obtain ⟨fl, ⟨hmem, _⟩, rfl⟩ := ho
  refine ⟨fl, hmem, ?_, ?_⟩
  · intro h
    simp [awardOfRaw, awardTaxesFees, h]
  · intro h
    simp [awardOfRaw, awardTaxesFees, h]

/-- Witness for C8: a concrete CAD-taxed record is kept and its `taxes_fees`
carries the divide-then-convert form. -/
theorem taxes_currency_normalization_witness :
    awardOfRaw "economy" true sampleRawCAD ∈ outboundFlightsOf "economy" true [sampleRawCAD] ∧
    ∃ fl ∈ [sampleRawCAD],
      (fl.taxesCurrency ≠ "USD" →
        (awardOfRaw "economy" true sampleRawCAD).taxes_fees =
          ((cabinData fl "economy").taxes / 100) * CAD_TO_USD) ∧
      (fl.taxesCurrency = "USD" →
        (awardOfRaw "economy" true sampleRawCAD).taxes_fees = (cabinData fl "economy").taxes / 100) :=
  ⟨by decide, taxes_currency_normalization "economy" true [sampleRawCAD] _ (by decide)⟩

/-- Claim C10: two requests that differ only in the `arrival_departure`
preference produce identical recommendations — the preference filter of the
route is commented out, so the value is never read. -/
theorem arrival_departure_ignored (amex chase : ℕ) (tt : String) (ad ch : ℕ)
    (rd : Option String) (ns : Bool) (cash : List CashFlight) (results : List SeatsResult) :
    flightSearch amex chase tt ad ch rd ns "flexible" cash results =
      flightSearch amex chase tt ad ch rd ns "morning_departure" cash results := rfl

/-- Witness for C10: the equality instantiated on a concrete request. -/
theorem arrival_departure_ignored_witness :
    flightSearch 0 0 "one-way" 1 0 none false "flexible" [sampleCash650] [] =
      flightSearch 0 0 "one-way" 1 0 none false "morning_departure" [sampleCash650] [] :=
  arrival_departure_ignored 0 0 "one-way" 1 0 none false [sampleCash650] []

/-- Claim C2: for a round-trip request, every offer in the final collected
list carries a matched return leg from one of the collected return pools,
with the same airline, the same program and the same cabin (the source
compares cabins after upper-casing, so two spellings of one cabin class
match), and its return time and date fields come from that return leg; an
offer without such a match is dropped, never surfaced outbound-only. -/
theorem round_trip_pairing (cash : List CashFlight) (results : List SeatsResult) (ad ch : ℕ)
    (rd : Option String) :
    ∀ o ∈ allFlightsOf cash results "round" ad ch rd,
      ∃ res ∈ results, ∃ r ∈ returnProcessed cash res.returnFlights,
        r.airline = o.airline ∧ r.program = o.program ∧
        toUpperStr r.cabin = toUpperStr o.cabin ∧
        o.return_departure_time = some r.departure_time ∧
        o.return_arrival_time = some r.arrival_time ∧
        o.return_date = some r.departure_date := by
  intro o ho
  unfold allFlightsOf at ho
  refine foldl_forall_mem _
    (fun b => ∃ res ∈ results, ∃ r ∈ returnProcessed cash res.returnFlights,
      r.airline = b.airline ∧ r.program = b.program ∧
      toUpperStr r.cabin = toUpperStr b.cabin ∧
      b.return_departure_time = some r.departure_time ∧
      b.return_arrival_time = some r.arrival_time ∧
      b.return_date = some r.departure_date)
    results [] ?_ (fun b hb => absurd hb (List.not_mem_nil _)) o ho
  intro acc res hres _ b hb
  unfold combineStep at hb
  split at hb
  case isTrue hcond =>
    obtain ⟨pre, _, hmo⟩ := mem_matchLegs.mp hb
    obtain ⟨r, hfind, rfl⟩ := matchOne_round_some hmo
    obtain ⟨hrmem, hair, hprog, hcab⟩ := findReturnMatch_spec hfind
    exact ⟨res, hres, r, hrmem, hair, hprog, hcab, rfl, rfl, rfl⟩
  case isFalse hcond =>
    exfalso
    have hlen : (acc ++ outboundProcessed cash ad ch rd res.outboundFlights).length = 0 := by
      by_contra hne
      exact hcond ⟨rfl, Nat.pos_of_ne_zero hne⟩
    rw [List.length_eq_zero] at hlen
    rw [hlen] at hb
    exact absurd hb (List.not_mem_nil _)

/-- Witness for C2: on a concrete round trip the surfaced offer has a return
match with the guaranteed field agreement. -/
theorem round_trip_pairing_witness :
    (allFlightsOf [sampleCashRound] [⟨[sampleAwardOut], [sampleAwardRet]⟩] "round" 1 0
        (some "2025-06-10")).headI ∈
      allFlightsOf [sampleCashRound] [⟨[sampleAwardOut], [sampleAwardRet]⟩] "round" 1 0
        (some "2025-06-10") ∧
    ∃ res ∈ [SeatsResult.mk [sampleAwardOut] [sampleAwardRet]],
      ∃ r ∈ returnProcessed [sampleCashRound] res.returnFlights,
        r.airline =
          (allFlightsOf [sampleCashRound] [⟨[sampleAwardOut], [sampleAwardRet]⟩] "round" 1 0
            (some "2025-06-10")).headI.airline ∧
        r.program =
          (allFlightsOf [sampleCashRound] [⟨[sampleAwardOut], [sampleAwardRet]⟩] "round" 1 0
            (some "2025-06-10")).headI.program ∧
        toUpperStr r.cabin =
          toUpperStr
            (allFlightsOf [sampleCashRound] [⟨[sampleAwardOut], [sampleAwardRet]⟩] "round" 1 0
              (some "2025-06-10")).headI.cabin ∧
        (allFlightsOf [sampleCashRound] [⟨[sampleAwardOut], [sampleAwardRet]⟩] "round" 1 0
            (some "2025-06-10")).headI.return_departure_time = some r.departure_time ∧
        (allFlightsOf [sampleCashRound] [⟨[sampleAwardOut], [sampleAwardRet]⟩] "round" 1 0
            (some "2025-06-10")).headI.return_arrival_time = some r.arrival_time ∧
        (allFlightsOf [sampleCashRound] [⟨[sampleAwardOut], [sampleAwardRet]⟩] "round" 1 0
            (some "2025-06-10")).headI.return_date = some r.departure_date :=
  ⟨by decide,
   round_trip_pairing [sampleCashRound] [⟨[sampleAwardOut], [sampleAwardRet]⟩] 1 0
     (some "2025-06-10") _ (by decide)⟩

/-- Counterexample for C4: on a one-way request with two adults the surfaced
`points_used` stays the raw per-itinerary mileage 60000, not
`party_size * 60000 * 1`; and with a repeated cabin entry on a round trip an
offer is re-matched and re-multiplied, surfacing 400 instead of
`party_size * 100 * 2 = 200`. -/
theorem points_used_counterexample :
    (((allFlightsOf [sampleCash650] [⟨outboundFlightsOf "economy" true [sampleRawUSD], []⟩]
        "one-way" 2 0 none).map (fun o => o.points_used)) = [60000] ∧
      (60000 : ℚ) ≠ party 2 0 * 60000 * 1) ∧
    (((allFlightsOf [sampleCashRound]
        [⟨[sampleAwardOut], [sampleAwardRet]⟩, ⟨[sampleAwardOut], [sampleAwardRet]⟩]
        "round" 1 0 (some "2025-06-10")).map (fun o => o.points_used)) = [400, 200] ∧
      (400 : ℚ) ≠ party 1 0 * 100 * 2) := by
  decide

/-- Claim C4 as amended: the party multiplication happens only inside the
round-trip matching pass.  A one-way request surfaces `points_used` equal to
the raw per-itinerary mileage of its source award offer, never multiplied;
one application of the round-trip matching pass sets `points_used` to
`(adults + children) * (pre-match points_used) * 2`. -/
theorem points_used_amended :
    (∀ (cash : List CashFlight) (results : List SeatsResult) (ad ch : ℕ) (rd : Option String),
      ∀ o ∈ allFlightsOf cash results "one-way" ad ch rd,
        ∃ res ∈ results, ∃ a ∈ res.outboundFlights, o.points_used = a.points_used) ∧
    (∀ (ad ch : ℕ) (retP : List RetOffer) (flights : List Offer),
      ∀ o ∈ matchLegs "round" ad ch retP flights,
        ∃ pre ∈ flights, o.points_used = party ad ch * pre.points_used * 2) := by
  constructor
  · intro cash results ad ch rd o ho
    unfold allFlightsOf at ho
    refine foldl_forall_mem _
      (fun b => ∃ res ∈ results, ∃ a ∈ res.outboundFlights, b.points_used = a.points_used)
      results [] ?_ (fun b hb => absurd hb (List.not_mem_nil _)) o ho
    intro acc res hres hacc b hb
    unfold combineStep at hb
    rw [if_neg (by simp)] at hb
    rcases List.mem_append.mp hb with h | h
    · exact hacc b h
    · obtain ⟨⟨a, ha, rfl⟩, _⟩ := mem_outboundProcessed.mp h
      exact ⟨res, hres, a, ha, processOutbound_points_used cash ad ch rd a⟩
  · intro ad ch retP flights o ho
    obtain ⟨pre, hpre, hmo⟩ := mem_matchLegs.mp ho
    obtain ⟨r, _, rfl⟩ := matchOne_round_some hmo
    exact ⟨pre, hpre, rfl⟩

/-- Witness for the amended C4: both parts instantiated on concrete data. -/
theorem points_used_amended_witness :
    (∃ res ∈ [SeatsResult.mk (outboundFlightsOf "economy" true [sampleRawUSD]) []],
      ∃ a ∈ res.outboundFlights,
        (allFlightsOf [sampleCash650] [⟨outboundFlightsOf "economy" true [sampleRawUSD], []⟩]
          "one-way" 2 0 none).headI.points_used = a.points_used) ∧
    (∃ pre ∈ outboundProcessed [sampleCashRound] 1 0 (some "2025-06-10") [sampleAwardOut],
      (matchLegs "round" 1 0 (returnProcessed [sampleCashRound] [sampleAwardRet])
          (outboundProcessed [sampleCashRound] 1 0 (some "2025-06-10")
            [sampleAwardOut])).headI.points_used =
        party 1 0 * pre.points_used * 2) :=
  ⟨points_used_amended.1 [sampleCash650] _ 2 0 none _ (by decide),
   points_used_amended.2 1 0 (returnProcessed [sampleCashRound] [sampleAwardRet])
     (outboundProcessed [sampleCashRound] 1 0 (some "2025-06-10") [sampleAwardOut]) _
     (by decide)⟩

/-- Claim C9: one application of the round-trip matching pass sums the taxes
of the outbound offer and its matched return leg, while the cpp field is
inherited unchanged from the outbound offer (where it was computed from the
outbound taxes alone) and is not recomputed. -/
theorem round_taxes_sum_cpp_kept (cash : List CashFlight) (ad ch : ℕ) (rd : Option String)
    (awards : List AwardOffer) (retP : List RetOffer) :
    ∀ o ∈ matchLegs "round" ad ch retP (outboundProcessed cash ad ch rd awards),
      ∃ pre ∈ outboundProcessed cash ad ch rd awards, ∃ r ∈ retP,
        o.taxes_fees = pre.taxes_fees + r.taxes_fees ∧ o.cpp = pre.cpp := by
  intro o ho
  obtain ⟨pre, hpre, hmo⟩ := mem_matchLegs.mp ho
  obtain ⟨r, hfind, rfl⟩ := matchOne_round_some hmo
  obtain ⟨hrmem, _, _, _⟩ := findReturnMatch_spec hfind
  exact ⟨pre, hpre, r, hrmem, by simp [jsOrQ_zero], rfl⟩

/-- Witness for C9: instantiated on the concrete round trip. -/
theorem round_taxes_sum_cpp_kept_witness :
    (matchLegs "round" 1 0 (returnProcessed [sampleCashRound] [sampleAwardRet])
        (outboundProcessed [sampleCashRound] 1 0 (some "2025-06-10") [sampleAwardOut])).headI ∈
      matchLegs "round" 1 0 (returnProcessed [sampleCashRound] [sampleAwardRet])
        (outboundProcessed [sampleCashRound] 1 0 (some "2025-06-10") [sampleAwardOut]) ∧
    ∃ pre ∈ outboundProcessed [sampleCashRound] 1 0 (some "2025-06-10") [sampleAwardOut],
      ∃ r ∈ returnProcessed [sampleCashRound] [sampleAwardRet],
        (matchLegs "round" 1 0 (returnProcessed [sampleCashRound] [sampleAwardRet])
            (outboundProcessed [sampleCashRound] 1 0 (some "2025-06-10")
              [sampleAwardOut])).headI.taxes_fees = pre.taxes_fees + r.taxes_fees ∧
        (matchLegs "round" 1 0 (returnProcessed [sampleCashRound] [sampleAwardRet])
            (outboundProcessed [sampleCashRound] 1 0 (some "2025-06-10")
              [sampleAwardOut])).headI.cpp = pre.cpp := by
  refine ⟨by decide, ?_⟩
  exact round_taxes_sum_cpp_kept [sampleCashRound] 1 0 (some "2025-06-10") [sampleAwardOut]
    (returnProcessed [sampleCashRound] [sampleAwardRet]) _ (by decide)

/-- Counterexample for C1: a surfaced recommendation whose cpp is negative
(award taxes 800 USD exceed the matched 650 USD cash price, and the route
applies no zero floor), contradicting `cpp` never negative. -/
theorem cpp_no_floor_counterexample :
    (flightSearch 100000 0 "one-way" 1 0 none true "flexible" [sampleCash650]
      [⟨outboundFlightsOf "economy" true [sampleRawUSD], []⟩]).any
      (fun r => match r with | .points p => decide (p.cpp < 0) | _ => false) = true := by
  decide

/-- Claim C1 as amended: every surfaced offer carries a truthy matched cash
price `p` and `cpp = (p - taxes_fees) / ((adults + children) * points_used) * 100`
with no zero floor applied (so cpp is negative whenever taxes exceed the cash
price); `cpp = 0` is produced only for offers without a truthy cash price,
which the surfacing filter removes. -/
theorem cpp_formula_of_surfaced (cash : List CashFlight) (ad ch : ℕ) (rd : Option String)
    (awards : List AwardOffer) :
    ∀ o ∈ outboundProcessed cash ad ch rd awards,
      ∃ p : ℚ, o.cash_price = some p ∧ p ≠ 0 ∧
        o.cpp = ((p - o.taxes_fees) / (party ad ch * o.points_used)) * 100 := by
  intro o ho
  obtain ⟨⟨a, ha, hpa⟩, htruthy⟩ := mem_outboundProcessed.mp ho
  cases hf : findCashForOutbound cash a with
  | none =>
    exfalso
    have hcp : (processOutbound cash ad ch rd a).cash_price = none := by
      unfold processOutbound
      rw [hf]
    rw [← hpa, hcp] at htruthy
    simp [cashTruthy] at htruthy
  | some cf =>
    have hcp : (processOutbound cash ad ch rd a).cash_price = some cf.cash_price := by
      unfold processOutbound
      rw [hf]
    have hne : cf.cash_price ≠ 0 := by
      rw [← hpa, hcp] at htruthy
      simpa [cashTruthy] using htruthy
    have ht : (processOutbound cash ad ch rd a).taxes_fees = a.taxes_fees := by
      unfold processOutbound
      rw [hf]
    have hpu := processOutbound_points_used cash ad ch rd a
    have hcpp : (processOutbound cash ad ch rd a).cpp =
        ((cf.cash_price - a.taxes_fees) / (party ad ch * a.points_used)) * 100 := by
      unfold processOutbound
      rw [hf]
      simp [hne]
    subst hpa
    exact ⟨cf.cash_price, hcp, hne, by rw [hcpp, ht, hpu]⟩

/-- Witness for the amended C1: the concrete surfaced offer satisfies the
floorless cpp formula. -/
theorem cpp_formula_of_surfaced_witness :
    (outboundProcessed [sampleCash650] 1 0 none
        (outboundFlightsOf "economy" true [sampleRawUSD])).headI ∈
      outboundProcessed [sampleCash650] 1 0 none
        (outboundFlightsOf "economy" true [sampleRawUSD]) ∧
    ∃ p : ℚ,
      (outboundProcessed [sampleCash650] 1 0 none
          (outboundFlightsOf "economy" true [sampleRawUSD])).headI.cash_price = some p ∧
      p ≠ 0 ∧
      (outboundProcessed [sampleCash650] 1 0 none
          (outboundFlightsOf "economy" true [sampleRawUSD])).headI.cpp =
        ((p -
            (outboundProcessed [sampleCash650] 1 0 none
              (outboundFlightsOf "economy" true [sampleRawUSD])).headI.taxes_fees) /
          (party 1 0 *
            (outboundProcessed [sampleCash650] 1 0 none
              (outboundFlightsOf "economy" true [sampleRawUSD])).headI.points_used)) * 100 :=
  ⟨by decide,
   cpp_formula_of_surfaced [sampleCash650] 1 0 none
     (outboundFlightsOf "economy" true [sampleRawUSD]) _ (by decide)⟩

/-- Claim C5: the points recommendation list keeps only offers whose
`points_used` is at most the Amex plus Chase balance, is sorted in descending
cpp order, and has at most 5 entries. -/
theorem points_ranking_sorted_bounded (amex chase : ℕ) (flights : List Offer) :
    (∀ r ∈ pointsRecommendations amex chase flights,
      r.points_used ≤ (amex : ℚ) + (chase : ℚ)) ∧
    (pointsRecommendations amex chase flights).Pairwise (fun a b => b.cpp ≤ a.cpp) ∧
    (pointsRecommendations amex chase flights).length ≤ 5 := by
  refine ⟨?_, ?_, ?_⟩
  · intro r hr
    simp only [pointsRecommendations, List.mem_map] at hr
    obtain ⟨f, hf, rfl⟩ := hr
    have hf2 : f ∈ List.insertionSort cppGe
        (flights.filter (fun f => decide ((amex : ℚ) + (chase : ℚ) ≥ f.points_used))) :=
      List.mem_of_mem_take hf
    rw [List.mem_insertionSort, List.mem_filter] at hf2
    have hle := hf2.2
    simp only [decide_eq_true_eq, ge_iff_le] at hle
    exact hle
  · have hs : (List.insertionSort cppGe
        (flights.filter
          (fun f => decide ((amex : ℚ) + (chase : ℚ) ≥ f.points_used)))).Pairwise cppGe := by
      haveI : IsTotal Offer cppGe := ⟨fun a b => le_total b.cpp a.cpp⟩
      haveI : IsTrans Offer cppGe := ⟨fun a b c hab hbc => le_trans hbc hab⟩
      exact List.sorted_insertionSort cppGe _
    have htake := List.Pairwise.sublist (List.take_sublist 5 _) hs
    exact List.Pairwise.map toPointsRec (fun a b h => h) htake
  · simp only [pointsRecommendations, List.length_map, List.length_take]
    exact min_le_left _ _

/-- Witness for C5: the length bound instantiated on the concrete surfaced
offer list. -/
theorem points_ranking_sorted_bounded_witness :
    (pointsRecommendations 100000 0 (outboundProcessed [sampleCash650] 1 0 none
      (outboundFlightsOf "economy" true [sampleRawUSD]))).length ≤ 5 :=
  (points_ranking_sorted_bounded 100000 0 (outboundProcessed [sampleCash650] 1 0 none
    (outboundFlightsOf "economy" true [sampleRawUSD]))).2.2

/-- The cash fallback reduction always lands on some element of the reduced
list (given a non-null starting accumulator). -/
theorem cashFold_some : ∀ (l : List CashFlight) (b : CashFlight),
    ∃ c, l.foldl cashStep (some b) = some c ∧ c ∈ b :: l
  | [], b => ⟨b, rfl, List.mem_cons_self _ _⟩
  | f :: l, b => by
    rw [List.foldl_cons]
    have hstep : cashStep (some b) f =
        if b.cash_price = 0 ∨ f.cash_price < b.cash_price then some f else some b := rfl
    rw [hstep]
    split
    · obtain ⟨c, hc, hmem⟩ := cashFold_some l f
      refine ⟨c, hc, ?_⟩
      rcases List.mem_cons.mp hmem with h | h
      · exact h ▸ List.mem_cons_of_mem _ (List.mem_cons_self _ _)
      · exact List.mem_cons_of_mem _ (List.mem_cons_of_mem _ h)
    · obtain ⟨c, hc, hmem⟩ := cashFold_some l b
      refine ⟨c, hc, ?_⟩
      rcases List.mem_cons.mp hmem with h | h
      · exact h ▸ List.mem_cons_self _ _
      · exact List.mem_cons_of_mem _ (List.mem_cons_of_mem _ h)

/-- The cash fallback reduction computes a minimum-price element when every
price in play is positive (a zero price would re-trigger the truthiness test
of the reduction and is excluded here). -/
theorem cashFold_min : ∀ (l : List CashFlight) (b : CashFlight),
    (∀ f ∈ l, 0 < f.cash_price) → 0 < b.cash_price →
    ∃ c, l.foldl cashStep (some b) = some c ∧ c ∈ b :: l ∧
      c.cash_price ≤ b.cash_price ∧ ∀ f ∈ l, c.cash_price ≤ f.cash_price
  | [], b, _, _ =>
    ⟨b, rfl, List.mem_cons_self _ _, le_refl _, fun f hf => absurd hf (List.not_mem_nil _)⟩
  | f :: l, b, hl, hb => by
    rw [List.foldl_cons]
    have hstep : cashStep (some b) f =
        if b.cash_price = 0 ∨ f.cash_price < b.cash_price then some f else some b := rfl
    rw [hstep]
    have hfpos : 0 < f.cash_price := hl f (List.mem_cons_self _ _)
    have hlpos : ∀ g ∈ l, 0 < g.cash_price := fun g hg => hl g (List.mem_cons_of_mem _ hg)
    by_cases hlt : f.cash_price < b.cash_price
    · rw [if_pos (Or.inr hlt)]
      obtain ⟨c, hc, hmem, hcb, hcl⟩ := cashFold_min l f hlpos hfpos
      refine ⟨c, hc, ?_, le_of_lt (lt_of_le_of_lt hcb hlt), ?_⟩
      · rcases List.mem_cons.mp hmem with h | h
        · exact h ▸ List.mem_cons_of_mem _ (List.mem_cons_self _ _)
        · exact List.mem_cons_of_mem _ (List.mem_cons_of_mem _ h)
      · intro g hg
        rcases List.mem_cons.mp hg with h | h
        · exact h ▸ hcb
        · exact hcl g h
    · rw [if_neg (not_or.mpr ⟨ne_of_gt hb, hlt⟩)]
      obtain ⟨c, hc, hmem, hcb, hcl⟩ := cashFold_min l b hlpos hb
      refine ⟨c, hc, ?_, hcb, ?_⟩
      · rcases List.mem_cons.mp hmem with h | h
        · exact h ▸ List.mem_cons_self _ _
        · exact List.mem_cons_of_mem _ (List.mem_cons_of_mem _ h)
      · intro g hg
        rcases List.mem_cons.mp hg with h | h
        · exact h ▸ le_trans hcb (le_of_not_lt hlt)
        · exact hcl g h

/-- Counterexample for C6: with one collected cash offer whose carrier code
is the empty string and no points recommendations, a cash offer passes the
nonstop filter yet the response is the sentinel, not a cash entry (the push
is guarded by the truthiness of the airline string). -/
theorem fallback_exclusive_counterexample :
    flightSearch 0 0 "one-way" 1 0 none false "flexible" [emptyAirlineCash] [] =
      [Rec.sentinel] ∧
    [emptyAirlineCash].filter (nsPass false) ≠ [] := by
  decide

/-- Claim C6 as amended: when every collected cash offer carries a nonempty
airline code and zero points recommendations qualify, the response is exactly
one cash entry when at least one cash offer passes the nonstop filter and
exactly the single sentinel otherwise — never both, never empty. -/
theorem fallback_exclusive_amended (amex chase : ℕ) (ns : Bool) (cash : List CashFlight)
    (flights : List Offer) (hair : ∀ f ∈ cash, f.airline ≠ "")
    (hpr : pointsRecommendations amex chase flights = []) :
    ((cash.filter (nsPass ns)) ≠ [] →
      ∃ b, recommendationsOf amex chase ns cash flights = [Rec.cash b]) ∧
    ((cash.filter (nsPass ns)) = [] →
      recommendationsOf amex chase ns cash flights = [Rec.sentinel]) := by
  constructor
  · intro hne
    obtain ⟨f0, t, hft⟩ := List.exists_cons_of_ne_nil hne
    have htake : (cash.filter (nsPass ns)).take 3 = f0 :: t.take 2 := by
      rw [hft]
      rfl
    obtain ⟨c, hc, hmem⟩ := cashFold_some (t.take 2) f0
    have hcr : cashRecommendation ns cash = some c := by
      unfold cashRecommendation
      rw [htake]
      show (t.take 2).foldl cashStep (cashStep none f0) = some c
      exact hc
    have hcmem : c ∈ cash := by
      rcases List.mem_cons.mp hmem with h | h
      · subst h
        have hflt : c ∈ cash.filter (nsPass ns) := by
          rw [hft]
          exact List.mem_cons_self _ _
        exact (List.mem_filter.mp hflt).1
      · have hflt : c ∈ cash.filter (nsPass ns) := by
          rw [hft]
          exact List.mem_cons_of_mem _ (List.mem_of_mem_take h)
        exact (List.mem_filter.mp hflt).1
    have hcair : c.airline ≠ "" := hair c hcmem
    refine ⟨c, ?_⟩
    unfold recommendationsOf recsBeforeSentinel
    rw [hpr, hcr]
    simp [hcair]
  · intro hemp
    have hcr : cashRecommendation ns cash = none := by
      unfold cashRecommendation
      rw [hemp]
      rfl
    unfold recommendationsOf recsBeforeSentinel
    rw [hpr, hcr]
    simp

/-- Witness for the amended C6: a concrete nonempty cash list yields exactly
one cash entry. -/
theorem fallback_exclusive_amended_witness :
    ∃ b, recommendationsOf 0 0 false [plainCash] [] = [Rec.cash b] :=
  (fallback_exclusive_amended 0 0 false [plainCash] [] (by decide) (by decide)).1 (by decide)

/-- Counterexample for C7: with four collected cash offers whose cheapest
(100 USD) sits in fourth position, the cash fallback entry is the 300 USD
offer — the reduction only scans the first three filtered offers — and it
carries no `payment_type` field at all. -/
theorem cash_fallback_counterexample :
    flightSearch 0 0 "one-way" 1 0 none false "flexible" fourCash [] = [Rec.cash cashA2] ∧
    cashA4 ∈ fourCash.filter (nsPass false) ∧
    cashA4.cash_price < cashA2.cash_price ∧
    paymentType (Rec.cash cashA2) = none := by
  decide

/-- Claim C7 as amended: when zero points recommendations qualify, every
collected cash offer has a nonempty airline code and a positive price, and at
least one passes the nonstop filter, the single fallback entry is a
minimum-price offer among the FIRST THREE offers of the nonstop-filtered cash
list (not the whole list), and it is the raw cash offer without any
`payment_type` tag. -/
theorem cash_fallback_amended (amex chase : ℕ) (ns : Bool) (cash : List CashFlight)
    (flights : List Offer) (hair : ∀ f ∈ cash, f.airline ≠ "")
    (hpos : ∀ f ∈ cash, 0 < f.cash_price)
    (hpr : pointsRecommendations amex chase flights = [])
    (hne : (cash.filter (nsPass ns)) ≠ []) :
    ∃ b, recommendationsOf amex chase ns cash flights = [Rec.cash b] ∧
      b ∈ (cash.filter (nsPass ns)).take 3 ∧
      (∀ f ∈ (cash.filter (nsPass ns)).take 3, b.cash_price ≤ f.cash_price) ∧
      paymentType (Rec.cash b) = none := by
  obtain ⟨f0, t, hft⟩ := List.exists_cons_of_ne_nil hne
  have hsub : ∀ g ∈ (cash.filter (nsPass ns)).take 3, g ∈ cash := fun g hg =>
    (List.mem_filter.mp (List.mem_of_mem_take hg)).1
  have htake : (cash.filter (nsPass ns)).take 3 = f0 :: t.take 2 := by
    rw [hft]
    rfl
  have hposs : ∀ g ∈ t.take 2, 0 < g.cash_price := by
    intro g hg
    refine hpos g (hsub g ?_)
    rw [htake]
    exact List.mem_cons_of_mem _ hg
  have hf0pos : 0 < f0.cash_price := by
    refine hpos f0 (hsub f0 ?_)
    rw [htake]
    exact List.mem_cons_self _ _
  obtain ⟨c, hc, hmem, hcb, hcl⟩ := cashFold_min (t.take 2) f0 hposs hf0pos
  have hcr : cashRecommendation ns cash = some c := by
    unfold cashRecommendation
    rw [htake]
    show (t.take 2).foldl cashStep (cashStep none f0) = some c
    exact hc
  have hcmem3 : c ∈ (cash.filter (nsPass ns)).take 3 := by
    rw [htake]
    exact hmem
  have hcair : c.airline ≠ "" := hair c (hsub c hcmem3)
  refine ⟨c, ?_, hcmem3, ?_, rfl⟩
  · unfold recommendationsOf recsBeforeSentinel
    rw [hpr, hcr]
    simp [hcair]
  · intro f hf
    rw [htake] at hf
    rcases List.mem_cons.mp hf with h | h
    · exact h ▸ hcb
    · exact hcl f h

/-- Witness for the amended C7: on the concrete four-offer cash list the
fallback entry is a minimum of the first three filtered offers and carries no
payment tag. -/
theorem cash_fallback_amended_witness :
    ∃ b, recommendationsOf 0 0 false fourCash [] = [Rec.cash b] ∧
      b ∈ (fourCash.filter (nsPass false)).take 3 ∧
      (∀ f ∈ (fourCash.filter (nsPass false)).take 3, b.cash_price ≤ f.cash_price) ∧
      paymentType (Rec.cash b) = none :=
  cash_fallback_amended 0 0 false fourCash [] (by decide) (by decide) (by decide) (by decide)

end Maestro
